import Mathlib

/-!
Verification development for the coder-cli AI protocol layer and
code-modification subsystem.

Strings of the TypeScript source are modelled as `List Char` (a JS string is a
sequence of code points; none of the verified properties depend on surrogate
pairs).  External library calls (`JSON.parse`, the filesystem) are modelled
explicitly: `JSON.parse` as an oracle parameter restricted to the fields the
code inspects, the filesystem as an association list from paths to contents
with total read/write/delete operations.
-/

namespace CoderCli

/-- The backtick character (used by fenced code blocks). -/
def btick : Char := Char.ofNat 96

/-- The apostrophe character (several source error messages contain it). -/
def apos : Char := Char.ofNat 39

/-- Whitespace as recognised by JavaScript `trim()` and the `\s` regex class,
restricted to the ASCII range (the sources never feed non-ASCII whitespace). -/
def isJsWs (c : Char) : Bool :=
  c = ' ' || c = '\t' || c = '\n' || c = '\r' || c = Char.ofNat 11 || c = Char.ofNat 12

/-- JavaScript `String.prototype.trim()`. -/
def jsTrim (l : List Char) : List Char :=
  ((l.dropWhile isJsWs).reverse.dropWhile isJsWs).reverse

/-- JavaScript `buffer.split('\n')`: split at every newline, keeping empty
segments, with one final (possibly empty) segment. -/
def splitNl : List Char → List (List Char)
  | [] => [[]]
  | c :: cs =>
    if c = '\n' then [] :: splitNl cs
    else
      match splitNl cs with
      | [] => [[c]]
      | l :: ls => (c :: l) :: ls

/-- JavaScript truthiness of an optional string field (`undefined` and the
empty string are falsy). -/
def jsTruthy : Option (List Char) → Bool
  | some s => !s.isEmpty
  | none => false

/-- Result of `JSON.parse` on a line, restricted to the fields the streaming
decoder in `chat-handler.ts` inspects: `response` is the `response` field when
present with a string value, `delta` is `some c` when `choices[0].delta` exists
(`c` being its `content` field when present with a string value). -/
structure ParsedJson where
  response : Option (List Char)
  delta : Option (Option (List Char))
deriving DecidableEq

/-- The SSE line marker `"data: "` (`line.startsWith('data: ')`,
`line.substring(6)` in the source). -/
def dataTag : List Char := "data: ".data

/-- The SSE end-of-stream sentinel. -/
def doneTag : List Char := "[DONE]".data

/-- Processing of one complete line by `getStreamedResponse`
(src/src/chat-handler.ts lines 532-576).  Returns the fragments emitted via
`onChunk` for this line, and whether the `[DONE]` sentinel was hit (which in
the source is a `break` out of the per-chunk line loop). -/
def processLine (parse : List Char → Option ParsedJson) (line : List Char) :
    List (List Char) × Bool :=
  if (jsTrim line).isEmpty then ([], false)
  else if dataTag.isPrefixOf line then
    let dataStr := line.drop 6
    if dataStr = doneTag then ([], true)
    else
      match parse dataStr with
      | some parsed =>
        if jsTruthy parsed.response then ([parsed.response.getD []], false)
        else ([], false)
      | none => ([dataStr], false)
  else
    match parse line with
    | some parsed =>
      match parsed.delta with
      | some content =>
        if jsTruthy content then ([content.getD []], false) else ([], false)
      | none =>
        if jsTruthy parsed.response then ([parsed.response.getD []], false)
        else ([], false)
    | none => ([line], false)

/-- The `for (const line of lines)` loop of `getStreamedResponse`: the
`[DONE]` sentinel breaks out of this loop only. -/
def processLines (parse : List Char → Option ParsedJson) :
    List (List Char) → List (List Char)
  | [] => []
  | l :: ls =>
    let r := processLine parse l
    if r.2 then r.1 else r.1 ++ processLines parse ls

/-- One iteration of the reader loop: append the chunk to the buffer, split on
newlines, keep the trailing incomplete line as the new buffer, process the
complete lines.  Returns (emitted fragments, new buffer). -/
def processChunk (parse : List Char → Option ParsedJson)
    (buffer chunk : List Char) : List (List Char) × List Char :=
  let parts := splitNl (buffer ++ chunk)
  (processLines parse parts.dropLast, parts.getLastD [])

/-- The reader loop of `getStreamedResponse`: consume chunks until the stream
is done, then flush a non-blank trailing buffer (stripping a `data: ` marker
if present). -/
def decodeStreamGo (parse : List Char → Option ParsedJson) :
    List Char → List (List Char) → List (List Char)
  | buffer, [] =>
    if (jsTrim buffer).isEmpty then []
    else if dataTag.isPrefixOf buffer then [buffer.drop 6]
    else [buffer]
  | buffer, c :: cs =>
    let r := processChunk parse buffer c
    r.1 ++ decodeStreamGo parse r.2 cs

/-- The streaming decoder of `getStreamedResponse`
(src/src/chat-handler.ts lines 503-583), as the sequence of fragments passed
to `onChunk` for a given sequence of decoded text chunks. -/
def decodeStream (parse : List Char → Option ParsedJson)
    (chunks : List (List Char)) : List (List Char) :=
  decodeStreamGo parse [] chunks

/-- JavaScript `hay.includes(needle)`: contiguous substring test. -/
def jsIncludes (hay needle : List Char) : Bool :=
  needle.isPrefixOf hay ||
    match hay with
    | [] => false
    | _ :: t => jsIncludes t needle

/-! ## Retry policy (`getResponseWithRetry`, src/src/chat-handler.ts 708-744) -/

/-- The non-retryable message classification of `getResponseWithRetry`
(src/src/chat-handler.ts lines 723-730): `error.message.includes(...)` for the
three terminal phrases. -/
def isNonRetryableMsg (msg : List Char) : Bool :=
  jsIncludes msg ("Daily free generation limit exceeded".data) ||
  jsIncludes msg ("Insufficient tokens".data) ||
  jsIncludes msg ("Authentication failed".data)

/-- The fallback error of `getResponseWithRetry` when the loop never recorded
an error (`lastError || new Error('Request failed after maximum retries')`). -/
def maxRetriesMsg : List Char :=
  "Request failed after maximum retries".data

/-- The `for (let attempt = 1; attempt <= maxRetries; attempt++)` loop of
`getResponseWithRetry`.  `remaining` counts the iterations still allowed after
the current one (`maxRetries - attempt`), so the loop guard
`attempt <= maxRetries` corresponds to the structural fuel and the backoff
guard `attempt < maxRetries` to `remaining > 0`.  The underlying
`getResponse` call is modelled as `req : Nat → Except (List Char) α` giving
the outcome of each attempt, where the `List Char` is the thrown error's
message.  Returns (outcome, performed backoff delays in ms, number of
attempts actually made). -/
def retryLoop {α : Type} (req : Nat → Except (List Char) α) :
    Nat → Nat → Option (List Char) → Except (List Char) α × List Nat × Nat
  | 0, _, lastError => (.error (lastError.getD maxRetriesMsg), [], 0)
  | fuel + 1, attempt, _ =>
    match req attempt with
    | .ok v => (.ok v, [], 1)
    | .error e =>
      if isNonRetryableMsg e then (.error e, [], 1)
      else if fuel > 0 then
        let d := 2 ^ attempt * 1000
        let r := retryLoop req fuel (attempt + 1) (some e)
        (r.1, d :: r.2.1, r.2.2 + 1)
      else
        let r := retryLoop req fuel (attempt + 1) (some e)
        (r.1, r.2.1, r.2.2 + 1)

/-- `getResponseWithRetry` (src/src/chat-handler.ts lines 708-744) with its
default `maxRetries = 3`. -/
def getResponseWithRetry {α : Type} (req : Nat → Except (List Char) α)
    (maxRetries : Nat := 3) : Except (List Char) α × List Nat × Nat :=
  retryLoop req maxRetries 1 none

/-! ## Error classification (`getResponse` non-2xx handling, chat-handler.ts
649-663, and `startRedesignSession`, chat-handler.ts 278-296) -/

/-- An error thrown by the protocol layer: either the dedicated
`AiCommunicationError` class or a plain `Error`. -/
inductive ChatError where
  | aiComm (msg : List Char)
  | generic (msg : List Char)
deriving DecidableEq

/-- Message carried by a thrown error. -/
def ChatError.msg : ChatError → List Char
  | .aiComm m => m
  | .generic m => m

/-- An error counts as authentication-classified exactly when its message
contains the phrase tested by the retry wrapper and emitted by the redesign
handler. -/
def isAuthClassified (e : ChatError) : Bool :=
  jsIncludes e.msg ("Authentication failed".data)

/-- An error counts as quota-classified exactly when its message contains one
of the two quota-exhaustion phrases. -/
def isQuotaClassified (e : ChatError) : Bool :=
  jsIncludes e.msg ("Daily free generation limit exceeded".data) ||
  jsIncludes e.msg ("Insufficient tokens".data)

/-- Decimal rendering of a number interpolated into a template string. -/
def natStr (n : Nat) : List Char := (Nat.repr n).data

/-- The error thrown by `getResponse` for a non-2xx response
(src/src/chat-handler.ts lines 649-663).  `parseErrField` models
`JSON.parse(errorText).error`: it returns the `error` field when the body
parses as JSON and that field is truthy, and `none` otherwise.  Every non-2xx
status is thrown as `AiCommunicationError`; there is no status-based
classification in this function. -/
def getResponseNonOkError (parseErrField : List Char → Option (List Char))
    (status : Nat) (errorText : List Char) : ChatError :=
  let errorMessage :=
    match parseErrField errorText with
    | some e => e
    | none =>
      "API request failed with status ".data ++ natStr status ++ ": ".data ++
        errorText
  .aiComm errorMessage

/-- Suffix appended to the body text for the daily-limit case of
`startRedesignSession`. -/
def dailyLimitSuffix : List Char :=
  "\n\nYou have reached your daily free generation limit. Please purchase tokens to continue using AI services..".data

/-- Suffix appended to the body text for the insufficient-tokens case of
`startRedesignSession`. -/
def insufficientSuffix : List Char :=
  "\n\nYour tokens are insufficient. Please purchase more tokens to continue..".data

/-- The generic authentication-failure message of `startRedesignSession`
(the source text contains apostrophes around `coder-cli init`). -/
def authFailedMsg (errorText : List Char) : List Char :=
  "Authentication failed. API key is missing or invalid.\nPlease check your configuration using ".data ++
    [apos] ++ "coder-cli init".data ++ [apos] ++ "\nDetails: ".data ++ errorText

/-- The error thrown by `startRedesignSession` for a non-2xx response
(src/src/chat-handler.ts lines 278-296): status 401/403 is classified as an
authentication failure, with the two quota phrases in the body overriding the
generic authentication message; any other non-2xx status throws a plain
`Error` with status, status text and body. -/
def redesignNonOkError (status : Nat) (statusText errorText : List Char) :
    ChatError :=
  if status = 401 || status = 403 then
    if jsIncludes errorText ("Daily free generation limit exceeded".data) then
      .aiComm (errorText ++ dailyLimitSuffix)
    else if jsIncludes errorText ("Insufficient tokens".data) then
      .aiComm (errorText ++ insufficientSuffix)
    else
      .aiComm (authFailedMsg errorText)
  else
    .generic ("API request failed: ".data ++ natStr status ++ " ".data ++
      statusText ++ " - ".data ++ errorText)

/-! ## Request construction (timeout / abort signal wiring) -/

/-- The configuration consumed by the protocol layer (`{apiUrl, apiKey?,
timeout?}`). -/
structure Config where
  apiUrl : List Char
  apiKey : Option (List Char)
  timeout : Option Nat

/-- JavaScript `config.timeout || default` (0 and `undefined` are falsy). -/
def jsOrNat (v : Option Nat) (d : Nat) : Nat :=
  match v with
  | some n => if n = 0 then d else n
  | none => d

/-- The aspects of a `fetch` call relevant to timeout handling: whether an
`AbortController` signal is attached, and the delay (ms) after which the
controller aborts. -/
structure RequestSpec where
  hasAbortSignal : Bool
  abortAfterMs : Option Nat
deriving DecidableEq

/-- The `fetch` call of `getStreamedResponse`
(src/src/chat-handler.ts lines 432-456): an `AbortController` is created, a
timer `config.timeout || 30000` schedules `controller.abort()`, and
`signal: controller.signal` is passed. -/
def streamedRequestSpec (config : Config) : RequestSpec :=
  { hasAbortSignal := true, abortAfterMs := some (jsOrNat config.timeout 30000) }

/-- The `fetch` call of `getResponse` (src/src/chat-handler.ts lines 635-642):
no `AbortController` is created and no `signal` option is passed. -/
def bufferedRequestSpec (_config : Config) : RequestSpec :=
  { hasAbortSignal := false, abortAfterMs := none }

/-- The `fetch` call of `startRedesignSession`
(src/src/chat-handler.ts lines 261-274): same abort wiring as the streamed
request, with timeout `config.timeout || 30000`. -/
def redesignRequestSpec (config : Config) : RequestSpec :=
  { hasAbortSignal := true, abortAfterMs := some (jsOrNat config.timeout 30000) }

/-! ## Code-modification subsystem (code-modifier.ts) -/

/-- `type ModificationType = 'create' | 'update' | 'delete'`. -/
inductive ModificationType where
  | create
  | update
  | delete
deriving DecidableEq

/-- `type ModificationMethod = 'replace' | 'append' | 'prepend' | 'merge'`. -/
inductive ModificationMethod where
  | replace
  | append
  | prepend
  | merge
deriving DecidableEq

/-- `interface CodeModification` of code-modifier.ts. -/
structure CodeModification where
  type : ModificationType
  filePath : List Char
  content : Option (List Char)
  method : Option ModificationMethod
deriving DecidableEq

/-- The filesystem, as a mapping from absolute paths to file contents.
All operations are total: I/O failures are outside the model. -/
abbrev FileSys : Type := List (List Char × List Char)

/-- `fs.pathExists`. -/
def fsExists (fs : FileSys) (p : List Char) : Bool :=
  fs.any (fun e => e.1 = p)

/-- `fs.readFile` on an existing path (empty for a missing one). -/
def fsRead (fs : FileSys) (p : List Char) : List Char :=
  match fs.find? (fun e => e.1 = p) with
  | some e => e.2
  | none => []

/-- `fs.unlink`. -/
def fsDelete (fs : FileSys) (p : List Char) : FileSys :=
  fs.filter (fun e => e.1 ≠ p)

/-- `fs.writeFile`: replace or add the entry for `p`.  The entry order of the
association list carries no meaning, so the new entry is simply put first. -/
def fsWrite (fs : FileSys) (p c : List Char) : FileSys :=
  (p, c) :: fsDelete fs p

/-- `path.join(projectPath, filePath)`.  Normalisation of `.`/`..` segments
and duplicate separators is not modelled; the verified properties only need
the joined path to be a function of the two arguments. -/
def pathJoin (a b : List Char) : List Char :=
  a ++ "/".data ++ b

/-- `mergeCode` (code-modifier.ts lines 179-192): empty existing content
returns the new content, empty new content returns the existing content,
otherwise the trimmed new content is deduplicated by substring check and the
two are joined with a blank line. -/
def mergeCode (existingContent newContent : List Char) : List Char :=
  if existingContent.isEmpty then newContent
  else if newContent.isEmpty then existingContent
  else if jsIncludes existingContent (jsTrim newContent) then existingContent
  else existingContent ++ "\n\n".data ++ newContent

/-- `updateFile` (code-modifier.ts lines 108-140): read the current content if
the file exists (else empty), apply the method (`newContent || ''` guards an
absent content), write the result. -/
def updateFile (fs : FileSys) (filePath : List Char)
    (newContent : Option (List Char)) (method : ModificationMethod) : FileSys :=
  let currentContent := if fsExists fs filePath then fsRead fs filePath else []
  let safeNewContent := newContent.getD []
  let updatedContent :=
    match method with
    | .replace => safeNewContent
    | .append => currentContent ++ safeNewContent
    | .prepend => safeNewContent ++ currentContent
    | .merge => mergeCode currentContent safeNewContent
  fsWrite fs filePath updatedContent

/-- `createFile` (code-modifier.ts lines 97-100): write, overwriting any
existing file. -/
def createFile (fs : FileSys) (filePath content : List Char) : FileSys :=
  fsWrite fs filePath content

/-- `deleteFile` (code-modifier.ts lines 164-171): unlink if present, warn and
do nothing otherwise. -/
def deleteFile (fs : FileSys) (filePath : List Char) : FileSys :=
  if fsExists fs filePath then fsDelete fs filePath else fs

/-- `validateModification` (code-modifier.ts lines 145-158), as the message of
the error it throws, or `none` when it passes.  The delete-with-content case
only prints a warning and does not throw. -/
def validateModification (m : CodeModification) : Option (List Char) :=
  if m.type = .create && m.content = none then
    some ("Content is required for ".data ++ [apos] ++ "create".data ++ [apos] ++
      " modification type in file: ".data ++ m.filePath)
  else if m.type = .update && m.content = none then
    some ("Content is required for ".data ++ [apos] ++ "update".data ++ [apos] ++
      " modification type in file: ".data ++ m.filePath)
  else
    none

/-- Accumulator of the `for (const modification of modifications)` loop of
`applyModifications`, together with the filesystem it mutates. -/
structure ApplyState where
  fs : FileSys
  success : Bool
  modifiedFiles : List (List Char)
  errors : List (List Char)

/-- One iteration of the loop of `applyModifications` (code-modifier.ts lines
43-81): validate, resolve the path, dispatch on the type; a thrown validation
error is caught, recorded with the offending path, marks the result
unsuccessful, and the loop continues.  The `default` branch of the source
switch is unreachable for a well-typed `CodeModification`. -/
def applyOne (projectPath : List Char) (st : ApplyState)
    (m : CodeModification) : ApplyState :=
  match validateModification m with
  | some errMsg =>
    { st with
      errors := st.errors ++
        ["Error modifying ".data ++ m.filePath ++ ": ".data ++ errMsg],
      success := false }
  | none =>
    let filePath := pathJoin projectPath m.filePath
    match m.type with
    | .create =>
      { st with fs := createFile st.fs filePath (m.content.getD []),
                modifiedFiles := st.modifiedFiles ++ [m.filePath] }
    | .update =>
      { st with fs := updateFile st.fs filePath m.content
                  (m.method.getD .replace),
                modifiedFiles := st.modifiedFiles ++ [m.filePath] }
    | .delete =>
      { st with fs := deleteFile st.fs filePath,
                modifiedFiles := st.modifiedFiles ++ [m.filePath] }

/-- `interface ModificationResult`, extended with the final filesystem. -/
structure ModificationResult where
  success : Bool
  message : List Char
  modifiedFiles : List (List Char)
  errors : List (List Char)
  fs : FileSys

/-- `applyModifications` (code-modifier.ts lines 32-90). -/
def applyModifications (projectPath : List Char) (fs : FileSys)
    (modifications : List CodeModification) : ModificationResult :=
  let st := modifications.foldl (applyOne projectPath)
    { fs := fs, success := true, modifiedFiles := [], errors := [] }
  { success := st.success,
    message :=
      if st.success then
        "Successfully modified ".data ++ natStr st.modifiedFiles.length ++
          " file(s)".data
      else
        "Partially completed: ".data ++ natStr st.errors.length ++
          " error(s) occurred".data,
    modifiedFiles := st.modifiedFiles,
    errors := st.errors,
    fs := st.fs }

/-! ## Modification parser (`parseModificationsFromResponse`,
code-modifier.ts lines 199-246).

The three `RegExp.exec` loops are embedded as left-to-right scans with the
exact semantics of the source regexes: a failed match attempt advances the
start position by one character, a successful match resumes after its end
(`lastIndex`).  The lazy bodies (`[\s\S]*?` up to a closing fence) become a
split at the first occurrence of three backticks; the greedy character-class
runs (`[\w\.\/\-\_]+`, `[^"]+`, `\s*`, `(?:\w+)?`) become `takeWhile` runs —
since each class excludes the character required right after it, no
backtracking case distinction arises. -/

/-- A character of the `[\w\.\/\-\_]` class of the file-block regex. -/
def isTokenChar (c : Char) : Bool :=
  c.isAlpha || c.isDigit || c = '_' || c = '.' || c = '/' || c = '-'

/-- A character of the regex `\w` class. -/
def isWordChar (c : Char) : Bool :=
  c.isAlpha || c.isDigit || c = '_'

/-- An opening or closing code fence: three backticks. -/
def fence : List Char := [btick, btick, btick]

/-- Split at the first occurrence of a fence: `some (before, after)` with the
fence itself consumed, `none` when no fence occurs. -/
def splitAtFence : List Char → Option (List Char × List Char)
  | [] => none
  | c :: cs =>
    if fence.isPrefixOf (c :: cs) then some ([], cs.drop 2)
    else
      match splitAtFence cs with
      | some r => some (c :: r.1, r.2)
      | none => none

theorem length_dropWhile_le (p : Char → Bool) (l : List Char) :
    (l.dropWhile p).length ≤ l.length :=
  (List.dropWhile_sublist p).length_le

theorem splitAtFence_length :
    ∀ {l b a : List Char}, splitAtFence l = some (b, a) → a.length ≤ l.length := by
  intro l
  induction l with
  | nil => intro b a h; simp [splitAtFence] at h
  | cons c cs ih =>
    intro b a h
    simp only [splitAtFence] at h
    split at h
    · cases h
      simp only [List.length_drop, List.length_cons]
      omega
    · cases hr : splitAtFence cs with
      | none => rw [hr] at h; cases h
      | some r =>
        rw [hr] at h
        cases h
        have := ih hr
        simp only [List.length_cons]
        omega

theorem isPrefixOf_length_le {p l : List Char} (h : p.isPrefixOf l = true) :
    p.length ≤ l.length := by
  induction p generalizing l with
  | nil => simp
  | cons x xs ih =>
    cases l with
    | nil => simp [List.isPrefixOf] at h
    | cons y ys =>
      simp only [List.isPrefixOf, Bool.and_eq_true] at h
      simpa using ih h.2

/-- One attempt of the `fileRegex` at the current position: an opening fence
immediately followed by a non-empty token of `[\w\.\/\-\_]` characters and a
newline, then the lazily-matched body up to the next fence.  Returns the
token, the body and the rest of the input after the closing fence. -/
def tryBlockAt (l : List Char) : Option (List Char × List Char × List Char) :=
  if fence.isPrefixOf l then
    if ((l.drop 3).takeWhile isTokenChar).isEmpty then none
    else
      match (l.drop 3).dropWhile isTokenChar with
      | '\n' :: afterNl =>
        match splitAtFence afterNl with
        | some r => some ((l.drop 3).takeWhile isTokenChar, r.1, r.2)
        | none => none
      | _ => none
  else none

theorem tryBlockAt_length {l : List Char}
    {r : List Char × List Char × List Char} (h : tryBlockAt l = some r) :
    r.2.2.length < l.length := by
  unfold tryBlockAt at h
  split at h
  next hpre =>
    split at h
    · cases h
    · split at h
      next afterNl h2 =>
        split at h
        next r' h6 =>
          cases h
          have f1 := isPrefixOf_length_le hpre
          have f2 : afterNl.length + 1 =
              ((l.drop 3).dropWhile isTokenChar).length := by
            rw [h2]; simp
          have f3 : ((l.drop 3).dropWhile isTokenChar).length ≤
              (l.drop 3).length := length_dropWhile_le _ _
          have f4 := splitAtFence_length h6
          simp only [List.length_drop, fence] at f1 f3 ⊢
          show r'.2.length < l.length
          simp only [List.length_cons] at f1
          omega
        next => cases h
      next => cases h
  next => cases h

/-- The `fileRegex` scan: find every (non-overlapping, leftmost) occurrence of
a fenced block with a filename token, capturing the token and the body. -/
def scanFileBlocks : List Char → List (List Char × List Char)
  | [] => []
  | c :: cs =>
    match h : tryBlockAt (c :: cs) with
    | some r => (r.1, r.2.1) :: scanFileBlocks r.2.2
    | none => scanFileBlocks cs
termination_by l => l.length
decreasing_by
  · have := tryBlockAt_length h
    simpa using this
  · simp

/-- Case-insensitive prefix test (the `i` regex flag; the affected literals
are ASCII). -/
def ciPrefixOf : List Char → List Char → Bool
  | [], _ => true
  | _ :: _, [] => false
  | p :: ps, c :: cs => (p.toLower = c.toLower) && ciPrefixOf ps cs

/-- Match a case-insensitive literal and return the input after it. -/
def dropCi (pat l : List Char) : Option (List Char) :=
  if ciPrefixOf pat l then some (l.drop pat.length) else none

theorem dropCi_length {pat l l' : List Char} (h : dropCi pat l = some l') :
    l'.length ≤ l.length := by
  unfold dropCi at h
  split at h
  · cases h; simp [List.length_drop]
  · cases h

/-- Match `([^"]+)"`: a non-empty greedy run of non-quote characters followed
by the closing quote.  Returns the capture and the input after the quote. -/
def takeQuoted (l : List Char) : Option (List Char × List Char) :=
  if (l.takeWhile (fun c => c ≠ '"')).isEmpty then none
  else
    match l.dropWhile (fun c => c ≠ '"') with
    | '"' :: rest => some (l.takeWhile (fun c => c ≠ '"'), rest)
    | _ => none

theorem takeQuoted_length {l cap rest : List Char}
    (h : takeQuoted l = some (cap, rest)) : rest.length < l.length := by
  unfold takeQuoted at h
  split at h
  · cases h
  · split at h
    next rest' heq =>
      cases h
      have h1 : (l.dropWhile (fun c => c ≠ '"')).length ≤ l.length :=
        length_dropWhile_le _ _
      rw [heq] at h1
      simp only [List.length_cons] at h1
      omega
    next => cases h

/-- Match `\s*` followed by an opening fence: skip the greedy whitespace run,
require a fence, return the input after the fence. -/
def wsFence (l : List Char) : Option (List Char) :=
  if fence.isPrefixOf (l.dropWhile isJsWs) then
    some ((l.dropWhile isJsWs).drop 3)
  else none

theorem wsFence_length {l rest : List Char} (h : wsFence l = some rest) :
    rest.length ≤ l.length := by
  unfold wsFence at h
  split at h
  · cases h
    have h1 : (l.dropWhile isJsWs).length ≤ l.length := length_dropWhile_le _ _
    simp only [List.length_drop]
    omega
  · cases h

/-- Match `(?:\w+)?\n`: skip an optional language tag and require a newline.
Returns the input after the newline. -/
def expectNl (l : List Char) : Option (List Char) :=
  match l.dropWhile isWordChar with
  | '\n' :: rest => some rest
  | _ => none

theorem expectNl_length {l rest : List Char} (h : expectNl l = some rest) :
    rest.length < l.length := by
  unfold expectNl at h
  split at h
  next rest' heq =>
    cases h
    have h1 : (l.dropWhile isWordChar).length ≤ l.length :=
      length_dropWhile_le _ _
    rw [heq] at h1
    simp only [List.length_cons] at h1
    omega
  next => cases h

/-- One attempt of the `createRegex` at the current position:
`Create file "([^"]+)" with content:` then `\s*`, an opening fence with
optional language tag, and the lazily-matched body up to a closing fence
(case-insensitive literals).  Returns the captured path and body and the rest
of the input after the match. -/
def tryCreateAt (l : List Char) : Option (List Char × List Char × List Char) :=
  match dropCi ("Create file \"".data) l with
  | none => none
  | some l1 =>
    match takeQuoted l1 with
    | none => none
    | some (path, l3) =>
      match dropCi (" with content:".data) l3 with
      | none => none
      | some l4 =>
        match wsFence l4 with
        | none => none
        | some l6 =>
          match expectNl l6 with
          | none => none
          | some l8 =>
            match splitAtFence l8 with
            | some r => some (path, r.1, r.2)
            | none => none

theorem tryCreateAt_length {l : List Char} {r : List Char × List Char × List Char}
    (h : tryCreateAt l = some r) : r.2.2.length < l.length := by
  unfold tryCreateAt at h
  split at h
  · cases h
  next l1 h1 =>
    split at h
    · cases h
    next path l3 h2 =>
      split at h
      · cases h
      next l4 h3 =>
        split at h
        · cases h
        next l6 h4 =>
          split at h
          · cases h
          next l8 h5 =>
            split at h
            next r' h6 =>
              cases h
              have f1 := dropCi_length h1
              have f2 := takeQuoted_length h2
              have f3 := dropCi_length h3
              have f4 := wsFence_length h4
              have f5 := expectNl_length h5
              have f6 := splitAtFence_length h6
              show r'.2.length < l.length
              omega
            next => cases h

/-- The `createRegex` scan. -/
def scanCreate : List Char → List (List Char × List Char)
  | [] => []
  | c :: cs =>
    match h : tryCreateAt (c :: cs) with
    | some r => (r.1, r.2.1) :: scanCreate r.2.2
    | none => scanCreate cs
termination_by l => l.length
decreasing_by
  · have := tryCreateAt_length h
    simpa using this
  · simp

/-- One attempt of the `deleteRegex` (`Delete file "([^"]+)"`,
case-insensitive literal) at the current position. -/
def tryDeleteAt (l : List Char) : Option (List Char × List Char) :=
  match dropCi ("Delete file \"".data) l with
  | none => none
  | some l1 => takeQuoted l1

theorem tryDeleteAt_length {l : List Char} {r : List Char × List Char}
    (h : tryDeleteAt l = some r) : r.2.length < l.length := by
  unfold tryDeleteAt at h
  split at h
  · cases h
  next l1 h1 =>
    have f1 := dropCi_length h1
    have f2 := takeQuoted_length h
    omega

/-- The `deleteRegex` scan. -/
def scanDelete : List Char → List (List Char)
  | [] => []
  | c :: cs =>
    match h : tryDeleteAt (c :: cs) with
    | some r => r.1 :: scanDelete r.2
    | none => scanDelete cs
termination_by l => l.length
decreasing_by
  · have := tryDeleteAt_length h
    simpa using this
  · simp

/-- `parseModificationsFromResponse` (code-modifier.ts lines 199-246): the
three scans run independently over the whole input, in source order; fenced
blocks with a filename header become `update`/`replace` modifications,
`Create file` directives become `create` modifications, `Delete file`
directives become `delete` modifications with no content. -/
def parseModificationsFromResponse (aiResponse : List Char) :
    List CodeModification :=
  (scanFileBlocks aiResponse).map
      (fun tb => { type := .update, filePath := tb.1, content := some tb.2,
                   method := some .replace }) ++
    (scanCreate aiResponse).map
      (fun tb => { type := .create, filePath := tb.1, content := some tb.2,
                   method := none }) ++
    (scanDelete aiResponse).map
      (fun t => { type := .delete, filePath := t, content := none,
                  method := none })

/-! ## Modelling vocabulary for the claims -/

/-- One content-carrying line of a well-formed SSE stream: a `data: ` line
whose payload is a JSON object carrying either a `response` field (`respItem`)
or a `choices[0].delta.content` field and no `response` field (`deltaItem`);
`payload` is the serialized JSON text, `v` the field's value. -/
inductive SseItem where
  | respItem (payload v : List Char)
  | deltaItem (payload v : List Char)
deriving DecidableEq

/-- The serialized payload of an item. -/
def SseItem.payload : SseItem → List Char
  | .respItem p _ => p
  | .deltaItem p _ => p

/-- The carried field value of an item. -/
def SseItem.value : SseItem → List Char
  | .respItem _ v => v
  | .deltaItem _ v => v

/-- Well-formedness of an item with respect to a `JSON.parse` oracle: the
payload is newline-free, is not the sentinel, and parses to an object of the
item's shape with a non-empty value. -/
def SseItem.ok (parse : List Char → Option ParsedJson) : SseItem → Bool
  | .respItem p v =>
    !p.contains '\n' && !(p = doneTag : Bool) &&
      match parse p with
      | some pj => pj.response = some v && !v.isEmpty
      | none => false
  | .deltaItem p v =>
    !p.contains '\n' && !(p = doneTag : Bool) &&
      match parse p with
      | some pj =>
        pj.response = none && pj.delta = some (some v) && !v.isEmpty
      | none => false

/-- What the source decoder emits for an item (the `data:` branch of the
source reads only `parsed.response`). -/
def SseItem.emitted : SseItem → List (List Char)
  | .respItem _ v => [v]
  | .deltaItem _ _ => []

/-- Render an item as its wire line, newline-terminated. -/
def renderItem (it : SseItem) : List Char :=
  dataTag ++ it.payload ++ ['\n']

/-- Render a whole well-formed SSE stream: the items' lines followed by the
newline-terminated `data: [DONE]` line. -/
def renderStream (items : List SseItem) : List Char :=
  (items.map renderItem).flatten ++ (dataTag ++ doneTag ++ ['\n'])

/-- A free-form AI response, decomposed into backtick-free text segments and
well-formed fenced file blocks, for stating what the modification parser
extracts. -/
inductive RespPiece where
  | textPiece (s : List Char)
  | blockPiece (tok body : List Char)
deriving DecidableEq

/-- Render a piece back to text: a block becomes an opening fence, the token,
a newline, the body, and a closing fence. -/
def renderPiece : RespPiece → List Char
  | .textPiece s => s
  | .blockPiece tok body => fence ++ tok ++ '\n' :: (body ++ fence)

/-- Render a decomposed response. -/
def renderResp (ps : List RespPiece) : List Char :=
  (ps.map renderPiece).flatten

/-- Well-formedness of a piece: text segments and block bodies contain no
backtick, block tokens are non-empty runs of path characters. -/
def RespPiece.ok : RespPiece → Bool
  | .textPiece s => !s.contains btick
  | .blockPiece tok body =>
    !tok.isEmpty && tok.all isTokenChar && !body.contains btick

/-- The (token, body) pair a piece contributes. -/
def RespPiece.blocks : RespPiece → List (List Char × List Char)
  | .textPiece _ => []
  | .blockPiece tok body => [(tok, body)]

/-! ## Helper lemmas: trimming, line splitting, SSE line processing -/

theorem jsTrim_cons_not_ws {c : Char} {l : List Char} (hc : isJsWs c = false) :
    (jsTrim (c :: l)).isEmpty = false := by
  by_contra hcon
  simp only [Bool.not_eq_false, jsTrim, List.dropWhile_cons, hc,
    Bool.false_eq_true, if_false, List.isEmpty_iff, List.reverse_eq_nil_iff,
    List.dropWhile_eq_nil_iff] at hcon
  have := hcon c (by simp)
  simp [hc] at this

theorem jsTrim_dataTag (p : List Char) : (jsTrim (dataTag ++ p)).isEmpty = false := by
  have he : dataTag ++ p = 'd' :: ("ata: ".data ++ p) := rfl
  rw [he]
  exact jsTrim_cons_not_ws (by decide)

theorem isPrefixOf_append_self :
    ∀ (pre l : List Char), pre.isPrefixOf (pre ++ l) = true := by
  intro pre l
  induction pre with
  | nil => simp [List.isPrefixOf]
  | cons a as ih => simp [List.isPrefixOf, ih]

theorem drop_dataTag (p : List Char) : (dataTag ++ p).drop 6 = p := by
  have h : (6 : Nat) = dataTag.length := rfl
  rw [h]
  exact List.drop_left _ _

theorem splitNl_ne_nil : ∀ l : List Char, splitNl l ≠ [] := by
  intro l
  induction l with
  | nil => simp [splitNl]
  | cons c cs ih =>
    simp only [splitNl]
    split
    · simp
    · cases h : splitNl cs with
      | nil => exact absurd h ih
      | cons x xs => simp

theorem splitNl_append_cons {a : List Char} (r : List Char) (ha : '\n' ∉ a) :
    splitNl (a ++ '\n' :: r) = a :: splitNl r := by
  induction a with
  | nil => simp [splitNl]
  | cons c cs ih =>
    have hc : ¬(c = '\n') := fun h => ha (by simp [h])
    have ih' := ih (fun h => ha (by simp [h]))
    show splitNl (c :: (cs ++ '\n' :: r)) = (c :: cs) :: splitNl r
    simp only [splitNl, if_neg hc, ih']

theorem processLine_done (parse : List Char → Option ParsedJson) :
    processLine parse (dataTag ++ doneTag) = ([], true) := rfl

theorem processLine_resp (parse : List Char → Option ParsedJson)
    {p v : List Char} {pj : ParsedJson} (hp : parse p = some pj)
    (hr : pj.response = some v) (hv : v.isEmpty = false) (hd : p ≠ doneTag) :
    processLine parse (dataTag ++ p) = ([v], false) := by
  simp [processLine, jsTrim_dataTag, isPrefixOf_append_self, drop_dataTag,
    hd, hp, hr, jsTruthy, hv]

theorem processLine_delta (parse : List Char → Option ParsedJson)
    {p : List Char} {pj : ParsedJson} (hp : parse p = some pj)
    (hr : pj.response = none) (hd : p ≠ doneTag) :
    processLine parse (dataTag ++ p) = ([], false) := by
  simp [processLine, jsTrim_dataTag, isPrefixOf_append_self, drop_dataTag,
    hd, hp, hr, jsTruthy]

theorem processLine_data_parse_fail (parse : List Char → Option ParsedJson)
    {p : List Char} (hp : parse p = none) (hd : p ≠ doneTag) :
    processLine parse (dataTag ++ p) = ([p], false) := by
  simp [processLine, jsTrim_dataTag, isPrefixOf_append_self, drop_dataTag,
    hd, hp]

theorem processLine_plain_parse_fail (parse : List Char → Option ParsedJson)
    {line : List Char} (ht : (jsTrim line).isEmpty = false)
    (hpre : dataTag.isPrefixOf line = false) (hp : parse line = none) :
    processLine parse line = ([line], false) := by
  simp [processLine, ht, hpre, hp]

theorem processLines_render (parse : List Char → Option ParsedJson) :
    ∀ items : List SseItem, (∀ it ∈ items, SseItem.ok parse it = true) →
      processLines parse
          (items.map (fun it => dataTag ++ it.payload) ++ [dataTag ++ doneTag]) =
        (items.map SseItem.emitted).flatten := by
  intro items
  induction items with
  | nil =>
    intro _
    simp [processLines, processLine_done]
  | cons it its ih =>
    intro h
    have hit := h it (by simp)
    have hits := fun x hx => h x (List.mem_cons_of_mem _ hx)
    cases it with
    | respItem p v =>
      simp only [SseItem.ok] at hit
      cases hp : parse p with
      | none => rw [hp] at hit; simp at hit
      | some pj =>
        rw [hp] at hit
        simp only [Bool.and_eq_true, decide_eq_true_eq, Bool.not_eq_true',
          decide_eq_false_iff_not] at hit
        obtain ⟨⟨hnl, hd⟩, hresp, hv⟩ := hit
        have hline : processLine parse
            (dataTag ++ (SseItem.respItem p v).payload) = ([v], false) :=
          processLine_resp parse hp hresp hv hd
        simp only [List.map_cons, List.cons_append, processLines, hline,
          List.append_eq]
        simp [SseItem.emitted, ih hits]
    | deltaItem p v =>
      simp only [SseItem.ok] at hit
      cases hp : parse p with
      | none => rw [hp] at hit; simp at hit
      | some pj =>
        rw [hp] at hit
        simp only [Bool.and_eq_true, decide_eq_true_eq, Bool.not_eq_true',
          decide_eq_false_iff_not] at hit
        obtain ⟨⟨hnl, hd⟩, ⟨hresp, hdelta⟩, hv⟩ := hit
        have hline : processLine parse
            (dataTag ++ (SseItem.deltaItem p v).payload) = ([], false) :=
          processLine_delta parse hp hresp hd
        simp only [List.map_cons, List.cons_append, processLines, hline,
          List.append_eq]
        simp [SseItem.emitted, ih hits]

theorem payload_no_newline (parse : List Char → Option ParsedJson)
    {it : SseItem} (h : SseItem.ok parse it = true) :
    '\n' ∉ it.payload := by
  cases it with
  | respItem p v =>
    simp only [SseItem.ok, Bool.and_eq_true] at h
    have := h.1.1
    simp only [Bool.not_eq_true'] at this
    simp [List.elem_iff] at this
    simpa using this
  | deltaItem p v =>
    simp only [SseItem.ok, Bool.and_eq_true] at h
    have := h.1.1
    simp only [Bool.not_eq_true'] at this
    simp [List.elem_iff] at this
    simpa using this

theorem splitNl_renderStream (parse : List Char → Option ParsedJson) :
    ∀ items : List SseItem, (∀ it ∈ items, SseItem.ok parse it = true) →
      splitNl (renderStream items) =
        items.map (fun it => dataTag ++ it.payload) ++ [dataTag ++ doneTag, []] := by
  intro items
  induction items with
  | nil =>
    intro _
    decide
  | cons it its ih =>
    intro h
    have hnl : '\n' ∉ dataTag ++ it.payload := by
      intro hm
      rcases List.mem_append.mp hm with h' | h'
      · revert h'; decide
      · exact payload_no_newline parse (h it (by simp)) h'
    have heq : renderStream (it :: its) =
        (dataTag ++ it.payload) ++ '\n' :: renderStream its := by
      simp [renderStream, renderItem, List.append_assoc]
    rw [heq, splitNl_append_cons _ hnl, ih (fun x hx => h x (List.mem_cons_of_mem _ hx))]
    simp

/-! ## Claim C1 -/

/-- Serialized JSON object `{"response":"Hel"}` used in concrete streams. -/
def c1RespPayload : List Char := "\x7b\"response\":\"Hel\"\x7d".data

/-- Serialized JSON object `{"choices":[{"delta":{"content":"hi"}}]}` used in
concrete streams. -/
def c1DeltaPayload : List Char :=
  "\x7b\"choices\":[\x7b\"delta\":\x7b\"content\":\"hi\"\x7d\x7d]\x7d".data

/-- A `JSON.parse` oracle agreeing with JavaScript `JSON.parse` on the two
concrete payloads above (restricted to the inspected fields). -/
def c1ParseOracle : List Char → Option ParsedJson := fun s =>
  if s = c1RespPayload then some ⟨some ("Hel".data), none⟩
  else if s = c1DeltaPayload then some ⟨none, some (some ("hi".data))⟩
  else none

/-- C1, counterexample: a well-formed SSE stream consisting of one `data:`
line whose JSON object carries `choices[0].delta.content = "hi"` (and no
`response` field), terminated by `data: [DONE]`, decodes to no fragments at
all — the source's `data:` branch reads only `parsed.response` — whereas the
claim requires the fragment list `["hi"]`. -/
theorem c1_counterexample :
    decodeStream c1ParseOracle
        [renderStream [SseItem.deltaItem c1DeltaPayload ("hi".data)]] = [] ∧
      decodeStream c1ParseOracle
        [renderStream [SseItem.deltaItem c1DeltaPayload ("hi".data)]] ≠
          [("hi".data)] ∧
      SseItem.ok c1ParseOracle (SseItem.deltaItem c1DeltaPayload ("hi".data)) =
        true := by
  refine ⟨by decide, by decide, by decide⟩

/-- C1 (amended): for every well-formed SSE stream whose `data:` lines carry
JSON objects with either a `response` field or a `choices[0].delta.content`
field and that ends with a `data: [DONE]` line, the streamed-response decoder
emits, in stream order, exactly the values of the `response` fields; `data:`
lines carrying only `choices[0].delta.content` are parsed but emit nothing;
consumption stops at the `[DONE]` sentinel and `[DONE]` itself is never
emitted as a fragment. -/
theorem c1_data_lines_emit_response_fields_only
    (parse : List Char → Option ParsedJson) (items : List SseItem)
    (h : ∀ it ∈ items, SseItem.ok parse it = true) :
    decodeStream parse [renderStream items] =
      (items.map SseItem.emitted).flatten := by
  simp only [decodeStream, decodeStreamGo, processChunk, List.nil_append]
  rw [splitNl_renderStream parse items h]
  simp [processLines_render parse items h, jsTrim]

/-- C1, witness: a concrete two-line stream (one `response` line, one
`delta.content` line) decoding to exactly the `response` value. -/
theorem c1_witness :
    decodeStream c1ParseOracle
        [renderStream [SseItem.respItem c1RespPayload ("Hel".data),
          SseItem.deltaItem c1DeltaPayload ("hi".data)]] = [("Hel".data)] :=
  (c1_data_lines_emit_response_fields_only c1ParseOracle
    [SseItem.respItem c1RespPayload ("Hel".data),
      SseItem.deltaItem c1DeltaPayload ("hi".data)] (by decide)).trans
    (by decide)

/-! ## Claim C7 -/

/-- C7, counterexample: the whitespace-only complete line `"   "` fails
`JSON.parse` (the oracle returns `none` on every input), yet the decoder
drops it silently instead of emitting the raw line text: the claim fails for
blank lines, which the `if (line.trim())` guard removes before the parse. -/
theorem c7_counterexample :
    decodeStream (fun _ => none) [("   \n".data)] = [] ∧
      decodeStream (fun _ => none) [("   \n".data)] ≠ [("   ".data)] := by
  refine ⟨by decide, by decide⟩

/-- C7 (amended): every complete line with non-blank content whose payload
fails to parse as JSON is emitted as a raw-text fragment with any `data: `
marker stripped — provided the payload is not the `[DONE]` sentinel; blank
lines and the sentinel are dropped without emission. -/
theorem c7_parse_failure_emits_raw_line :
    (∀ (parse : List Char → Option ParsedJson) (p : List Char),
      p ≠ doneTag → parse p = none →
        processLine parse (dataTag ++ p) = ([p], false)) ∧
    (∀ (parse : List Char → Option ParsedJson) (line : List Char),
      (jsTrim line).isEmpty = false → dataTag.isPrefixOf line = false →
        parse line = none → processLine parse line = ([line], false)) :=
  ⟨fun parse _ hd hp => processLine_data_parse_fail parse hp hd,
   fun parse _ ht hpre hp => processLine_plain_parse_fail parse ht hpre hp⟩

/-- C7, witness: a malformed `data:` line and a malformed bare line are both
emitted verbatim (marker stripped for the former). -/
theorem c7_witness :
    processLine (fun _ => none) (dataTag ++ ("notjson".data)) =
        ([("notjson".data)], false) ∧
      processLine (fun _ => none) ("oops".data) = ([("oops".data)], false) :=
  ⟨c7_parse_failure_emits_raw_line.1 (fun _ => none) ("notjson".data)
      (by decide) rfl,
   c7_parse_failure_emits_raw_line.2 (fun _ => none) ("oops".data)
      (by decide) (by decide) rfl⟩

/-! ## Claims C3 and C4 -/

/-- C3: an error whose message contains `Authentication failed`,
`Daily free generation limit exceeded` or `Insufficient tokens` is re-raised
immediately by the retry wrapper: when thrown on the first attempt there are
zero further attempts and zero delays; when thrown on a later attempt, no
further attempt and no further delay follow it. -/
theorem c3_non_retryable_fails_immediately {α : Type} :
    (∀ (req : Nat → Except (List Char) α) (e : List Char),
      req 1 = .error e → isNonRetryableMsg e = true →
        getResponseWithRetry req = (.error e, [], 1)) ∧
    (∀ (req : Nat → Except (List Char) α) (e1 e2 : List Char),
      req 1 = .error e1 → isNonRetryableMsg e1 = false →
        req 2 = .error e2 → isNonRetryableMsg e2 = true →
          getResponseWithRetry req = (.error e2, [2000], 2)) := by
  constructor
  · intro req e h1 h2
    simp [getResponseWithRetry, retryLoop, h1, h2]
  · intro req e1 e2 h1 h2 h3 h4
    simp [getResponseWithRetry, retryLoop, h1, h2, h3, h4]

/-- C3, witness: a request function that always throws an
authentication-classified error fails in one attempt with no delays. -/
theorem c3_witness :
    getResponseWithRetry
        (fun _ => (.error ("Authentication failed. API key is missing".data) :
          Except (List Char) Unit)) =
      (.error ("Authentication failed. API key is missing".data), [], 1) :=
  c3_non_retryable_fails_immediately.1 _ _ rfl (by decide)

/-- C4: a request function that fails with retryable errors N times
(N < 3) and then succeeds makes the wrapper return the success value after
the doubling delays 2^1·1000, 2^2·1000, ... ms between attempts; and when all
3 attempts fail with retryable errors, the last observed error is raised
after the delays [2000, 4000]. -/
theorem c4_retry_backoff {α : Type} :
    (∀ (req : Nat → Except (List Char) α) (v : α) (N : Nat), N < 3 →
      (∀ i, i < N → ∃ e, req (i+1) = .error e ∧ isNonRetryableMsg e = false) →
      req (N+1) = .ok v →
        getResponseWithRetry req =
          (.ok v, (List.range N).map (fun i => 2 ^ (i+1) * 1000), N+1)) ∧
    (∀ (req : Nat → Except (List Char) α) (e1 e2 e3 : List Char),
      req 1 = .error e1 → isNonRetryableMsg e1 = false →
      req 2 = .error e2 → isNonRetryableMsg e2 = false →
      req 3 = .error e3 → isNonRetryableMsg e3 = false →
        getResponseWithRetry req = (.error e3, [2000, 4000], 3)) := by
  constructor
  · intro req v N hN herr hok
    interval_cases N
    · simp [getResponseWithRetry, retryLoop, hok]
    · obtain ⟨e, he, hr⟩ := herr 0 (by omega)
      simp only [Nat.zero_add] at he
      simp [getResponseWithRetry, retryLoop, he, hr, hok, List.range_succ]
    · obtain ⟨e, he, hr⟩ := herr 0 (by omega)
      obtain ⟨e', he', hr'⟩ := herr 1 (by omega)
      simp only [Nat.zero_add] at he
      simp [getResponseWithRetry, retryLoop, he, hr, he', hr', hok,
        List.range_succ]
  · intro req e1 e2 e3 h1 h2 h3 h4 h5 h6
    simp [getResponseWithRetry, retryLoop, h1, h2, h3, h4, h5, h6]

/-- C4, witness: two retryable failures then success returns the success
value with delays [2000, 4000]; three retryable failures raise the last
error with the same delays. -/
theorem c4_witness :
    getResponseWithRetry
        (fun n => if n < 3 then (.error ("boom".data) : Except (List Char) Nat)
          else .ok 7) =
      (.ok 7, [2000, 4000], 3) ∧
    getResponseWithRetry
        (fun n => (.error (("fail ".data ++ natStr n) : List Char) :
          Except (List Char) Nat)) =
      (.error ("fail 3".data), [2000, 4000], 3) := by
  constructor
  · have h := c4_retry_backoff.1
      (fun n => if n < 3 then (.error ("boom".data) : Except (List Char) Nat)
        else .ok 7) 7 2 (by omega)
      (fun i hi => ⟨("boom".data),
        by interval_cases i <;> exact ⟨by norm_num, by decide⟩⟩)
      (by norm_num)
    rw [h]
    rfl
  · exact c4_retry_backoff.2 _ ("fail 1".data) ("fail 2".data) ("fail 3".data)
      rfl (by decide) rfl (by decide) rfl (by decide)

/-! ## Claims C2 and C10: the modification applier -/

theorem fsRead_fsWrite (fs : FileSys) (p c : List Char) :
    fsRead (fsWrite fs p c) p = c := by
  simp [fsRead, fsWrite, List.find?]

theorem applyOne_valid {p : List Char} {st : ApplyState} {m : CodeModification}
    (h : validateModification m = none) :
    (applyOne p st m).success = st.success ∧
      (applyOne p st m).errors = st.errors ∧
      (applyOne p st m).modifiedFiles = st.modifiedFiles ++ [m.filePath] := by
  cases ht : m.type <;> simp [applyOne, h, ht]

theorem applyOne_invalid {p : List Char} {st : ApplyState}
    {m : CodeModification} {msg : List Char}
    (h : validateModification m = some msg) :
    (applyOne p st m).success = false ∧
      (applyOne p st m).errors = st.errors ++
        ["Error modifying ".data ++ m.filePath ++ ": ".data ++ msg] ∧
      (applyOne p st m).modifiedFiles = st.modifiedFiles := by
  simp [applyOne, h]

theorem foldl_applyOne_success (p : List Char) :
    ∀ (mods : List CodeModification) (st : ApplyState),
      (mods.foldl (applyOne p) st).success =
        (st.success && mods.all (fun m => validateModification m == none)) := by
  intro mods
  induction mods with
  | nil => intro st; simp
  | cons m ms ih =>
    intro st
    simp only [List.foldl_cons, List.all_cons, ih]
    cases hv : validateModification m with
    | none =>
      rw [(@applyOne_valid p st m hv).1]
      simp [hv, Bool.and_assoc]
    | some msg =>
      rw [(@applyOne_invalid p st m msg hv).1]
      simp [hv]

/-- C2: the batch applier marks the whole result failed exactly when at least
one item fails (in the model, the only failure source is the validation
throw); a failing item is recorded in `errors` with its path and processing
continues, so a 3-item batch whose 2nd item is an `update` with absent
content yields `success = false`, `modifiedFiles` equal to the 1st and 3rd
paths, and exactly one error naming the 2nd path. -/
theorem c2_partial_failure_semantics :
    (∀ (projectPath : List Char) (fs : FileSys)
        (mods : List CodeModification),
      ((applyModifications projectPath fs mods).success = false ↔
        ∃ m ∈ mods, validateModification m ≠ none)) ∧
    (∀ (projectPath : List Char) (fs : FileSys) (m1 m3 : CodeModification)
        (path2 : List Char) (mth2 : Option ModificationMethod),
      validateModification m1 = none → validateModification m3 = none →
        (applyModifications projectPath fs
            [m1, ⟨.update, path2, none, mth2⟩, m3]).success = false ∧
        (applyModifications projectPath fs
            [m1, ⟨.update, path2, none, mth2⟩, m3]).modifiedFiles =
          [m1.filePath, m3.filePath] ∧
        (applyModifications projectPath fs
            [m1, ⟨.update, path2, none, mth2⟩, m3]).errors =
          ["Error modifying ".data ++ path2 ++ ": ".data ++
            ("Content is required for ".data ++ [apos] ++ "update".data ++
              [apos] ++ " modification type in file: ".data ++ path2)]) := by
  constructor
  · intro projectPath fs mods
    show (mods.foldl (applyOne projectPath) ⟨fs, true, [], []⟩).success =
        false ↔ _
    rw [foldl_applyOne_success]
    simp [List.all_eq_true]
  · intro projectPath fs m1 m3 path2 mth2 h1 h3
    have hv2 : validateModification ⟨.update, path2, none, mth2⟩ =
        some ("Content is required for ".data ++ [apos] ++ "update".data ++
          [apos] ++ " modification type in file: ".data ++ path2) := rfl
    have A1 := @applyOne_valid projectPath ⟨fs, true, [], []⟩ m1 h1
    have A2 := @applyOne_invalid projectPath
      (applyOne projectPath ⟨fs, true, [], []⟩ m1)
      ⟨.update, path2, none, mth2⟩ _ hv2
    have A3 := @applyOne_valid projectPath
      (applyOne projectPath (applyOne projectPath ⟨fs, true, [], []⟩ m1)
        ⟨.update, path2, none, mth2⟩) m3 h3
    refine ⟨?_, ?_, ?_⟩
    · show (List.foldl (applyOne projectPath) ⟨fs, true, [], []⟩
          [m1, ⟨.update, path2, none, mth2⟩, m3]).success = false
      simp only [List.foldl_cons, List.foldl_nil]
      rw [A3.1, A2.1]
    · show (List.foldl (applyOne projectPath) ⟨fs, true, [], []⟩
          [m1, ⟨.update, path2, none, mth2⟩, m3]).modifiedFiles = _
      simp only [List.foldl_cons, List.foldl_nil]
      rw [A3.2.2, A2.2.2, A1.2.2]
      simp
    · show (List.foldl (applyOne projectPath) ⟨fs, true, [], []⟩
          [m1, ⟨.update, path2, none, mth2⟩, m3]).errors = _
      simp only [List.foldl_cons, List.foldl_nil]
      rw [A3.2.1, A2.2.1, A1.2.1]
      simp

/-- C2, witness: the concrete 3-item batch (create a.txt, update b.txt with
absent content, delete c.txt) on an empty filesystem. -/
theorem c2_witness :
    (applyModifications ("proj".data) []
        [⟨.create, "a.txt".data, some ("x".data), none⟩,
         ⟨.update, "b.txt".data, none, none⟩,
         ⟨.delete, "c.txt".data, none, none⟩]).success = false ∧
      (applyModifications ("proj".data) []
        [⟨.create, "a.txt".data, some ("x".data), none⟩,
         ⟨.update, "b.txt".data, none, none⟩,
         ⟨.delete, "c.txt".data, none, none⟩]).modifiedFiles =
        [("a.txt".data), ("c.txt".data)] ∧
      (applyModifications ("proj".data) []
        [⟨.create, "a.txt".data, some ("x".data), none⟩,
         ⟨.update, "b.txt".data, none, none⟩,
         ⟨.delete, "c.txt".data, none, none⟩]).errors =
        ["Error modifying ".data ++ "b.txt".data ++ ": ".data ++
          ("Content is required for ".data ++ [apos] ++ "update".data ++
            [apos] ++ " modification type in file: ".data ++ "b.txt".data)] :=
  c2_partial_failure_semantics.2 ("proj".data) []
    ⟨.create, "a.txt".data, some ("x".data), none⟩
    ⟨.delete, "c.txt".data, none, none⟩ ("b.txt".data) none rfl rfl

/-- C10: a `delete` modification whose resolved target does not exist still
appends its `filePath` to `modifiedFiles`, adds nothing to `errors`, leaves
`success` unchanged and the filesystem untouched; as a singleton batch it
yields `success = true` with that one modified file and no errors. -/
theorem c10_missing_delete_counts_as_modified
    (projectPath : List Char) (st : ApplyState) (m : CodeModification)
    (ht : m.type = .delete)
    (hne : fsExists st.fs (pathJoin projectPath m.filePath) = false) :
    applyOne projectPath st m =
        { st with modifiedFiles := st.modifiedFiles ++ [m.filePath] } ∧
      (applyModifications projectPath st.fs [m]).success = true ∧
      (applyModifications projectPath st.fs [m]).modifiedFiles =
        [m.filePath] ∧
      (applyModifications projectPath st.fs [m]).errors = [] := by
  have hv : validateModification m = none := by
    simp [validateModification, ht]
  have happ : ∀ st' : ApplyState, st'.fs = st.fs →
      applyOne projectPath st' m =
        { st' with modifiedFiles := st'.modifiedFiles ++ [m.filePath] } := by
    intro st' hfs
    simp only [applyOne, hv, ht]
    rw [deleteFile, hfs, hne]
    simp
  refine ⟨happ st rfl, ?_, ?_, ?_⟩ <;>
    simp [applyModifications, happ ⟨st.fs, true, [], []⟩ rfl]

/-- C10, witness: deleting the absent `gone.txt` from a one-file filesystem
counts it as modified with no error and overall success. -/
theorem c10_witness :
    applyOne ("proj".data)
        ⟨[(pathJoin ("proj".data) ("keep.txt".data), "k".data)], true, [], []⟩
        ⟨.delete, "gone.txt".data, none, none⟩ =
      ⟨[(pathJoin ("proj".data) ("keep.txt".data), "k".data)], true,
        [("gone.txt".data)], []⟩ ∧
    (applyModifications ("proj".data)
        [(pathJoin ("proj".data) ("keep.txt".data), "k".data)]
        [⟨.delete, "gone.txt".data, none, none⟩]).success = true :=
  ⟨(c10_missing_delete_counts_as_modified ("proj".data)
      ⟨[(pathJoin ("proj".data) ("keep.txt".data), "k".data)], true, [], []⟩
      ⟨.delete, "gone.txt".data, none, none⟩ rfl (by decide)).1,
   (c10_missing_delete_counts_as_modified ("proj".data)
      ⟨[(pathJoin ("proj".data) ("keep.txt".data), "k".data)], true, [], []⟩
      ⟨.delete, "gone.txt".data, none, none⟩ rfl (by decide)).2.1⟩

/-! ## Claim C6: the `merge` update method -/

/-- C6, counterexample: an `update`/`merge` of content `"b"` into an absent
file (current content empty) writes `"b"`, not the `current + "\n\n" + new`
result the claim prescribes (the trimmed `"b"` is not a substring of the
empty current content, so the claim's `otherwise` branch applies and demands
`"\n\nb"`). -/
theorem c6_counterexample :
    fsRead (updateFile [] ("proj/p".data) (some ("b".data))
        ModificationMethod.merge) ("proj/p".data) = ("b".data) ∧
      jsIncludes [] (jsTrim ("b".data)) = false ∧
      ("b".data : List Char) ≠ "\n\n".data ++ "b".data := by
  refine ⟨by decide, by decide, by decide⟩

/-- C6 (amended): for an `update` with method `merge`, writing new content
`nw` over current content `C` (the file's content when it exists, empty
otherwise): when `C` is non-empty and the trimmed `nw` is a substring of `C`
the file is left unchanged; when `C` is non-empty and it is not, the written
result is `C + two newlines + nw`; when `C` is empty (file absent or empty)
the written result is `nw` verbatim. -/
theorem c6_merge_update_semantics (fs : FileSys) (path nw C : List Char)
    (hC : (if fsExists fs path then fsRead fs path else []) = C) :
    (C ≠ [] → jsIncludes C (jsTrim nw) = true →
      fsRead (updateFile fs path (some nw) ModificationMethod.merge) path = C) ∧
    (C ≠ [] → jsIncludes C (jsTrim nw) = false →
      fsRead (updateFile fs path (some nw) ModificationMethod.merge) path =
        C ++ "\n\n".data ++ nw) ∧
    (C = [] →
      fsRead (updateFile fs path (some nw) ModificationMethod.merge) path =
        nw) := by
  have base :
      fsRead (updateFile fs path (some nw) ModificationMethod.merge) path =
        mergeCode C nw := by
    simp only [updateFile, hC, Option.getD_some, fsRead_fsWrite]
  refine ⟨?_, ?_, ?_⟩
  · intro hne hinc
    rw [base]
    have hne' : C.isEmpty = false := by
      cases C with
      | nil => exact absurd rfl hne
      | cons x xs => rfl
    simp [mergeCode, hne', hinc]
  · intro hne hinc
    rw [base]
    have hne' : C.isEmpty = false := by
      cases C with
      | nil => exact absurd rfl hne
      | cons x xs => rfl
    have hnw : nw.isEmpty = false := by
      cases nw with
      | nil =>
        exfalso
        rw [show jsTrim [] = [] from rfl, jsIncludes.eq_def] at hinc
        simp [List.isPrefixOf] at hinc
      | cons x xs => rfl
    simp [mergeCode, hne', hinc, hnw]
  · intro he
    rw [base, he]
    simp [mergeCode]

/-- C6, witness: current `"a"` with new `"a"` stays `"a"`; current `"a"` with
new `"b"` becomes `"a\n\nb"`; an absent file updated with `"b"` becomes
`"b"`. -/
theorem c6_witness :
    fsRead (updateFile [(("p".data), ("a".data))] ("p".data)
        (some ("a".data)) ModificationMethod.merge) ("p".data) = ("a".data) ∧
      fsRead (updateFile [(("p".data), ("a".data))] ("p".data)
        (some ("b".data)) ModificationMethod.merge) ("p".data) =
        ("a".data) ++ "\n\n".data ++ ("b".data) ∧
      fsRead (updateFile [] ("q".data) (some ("b".data))
        ModificationMethod.merge) ("q".data) = ("b".data) :=
  ⟨(c6_merge_update_semantics [(("p".data), ("a".data))] ("p".data)
      ("a".data) ("a".data) (by decide)).1 (by decide) (by decide),
   (c6_merge_update_semantics [(("p".data), ("a".data))] ("p".data)
      ("b".data) ("a".data) (by decide)).2.1 (by decide) (by decide),
   (c6_merge_update_semantics [] ("q".data) ("b".data) []
      (by decide)).2.2 rfl⟩

/-! ## Claim C5: non-2xx error classification -/

theorem isPrefixOf_append_of_isPrefixOf {p l : List Char} (b : List Char)
    (h : p.isPrefixOf l = true) : p.isPrefixOf (l ++ b) = true := by
  induction p generalizing l with
  | nil => simp [List.isPrefixOf]
  | cons x xs ih =>
    cases l with
    | nil => simp [List.isPrefixOf] at h
    | cons y ys =>
      simp only [List.isPrefixOf, List.cons_append, Bool.and_eq_true,
        beq_iff_eq] at h ⊢
      exact ⟨h.1, ih h.2⟩

theorem jsIncludes_nil (hay : List Char) : jsIncludes hay [] = true := by
  rw [jsIncludes.eq_def]
  simp [List.isPrefixOf]

theorem jsIncludes_append_left {a n : List Char} (b : List Char)
    (h : jsIncludes a n = true) : jsIncludes (a ++ b) n = true := by
  induction a with
  | nil =>
    have hn : n = [] := by
      cases n with
      | nil => rfl
      | cons x xs =>
        rw [jsIncludes.eq_def] at h
        simp [List.isPrefixOf] at h
    subst hn
    simpa using jsIncludes_nil b
  | cons c a ih =>
    rw [jsIncludes.eq_def] at h
    simp only [Bool.or_eq_true] at h
    show jsIncludes (c :: (a ++ b)) n = true
    rw [jsIncludes.eq_def]
    simp only [Bool.or_eq_true]
    cases h with
    | inl hp =>
      left
      have := isPrefixOf_append_of_isPrefixOf b hp
      simpa using this
    | inr hr => right; exact ih hr

/-- C5, counterexample: a 401 response with body `"nope"` reaching the
buffered `getResponse` raises `AiCommunicationError` with the generic
`API request failed with status 401: nope` message — it is not classified as
an authentication failure (its message does not contain
`Authentication failed`, so the retry wrapper will even retry it), and not as
a quota failure; the status-based classification the claim describes exists
only in the redesign path. -/
theorem c5_counterexample :
    getResponseNonOkError (fun _ => none) 401 ("nope".data) =
        ChatError.aiComm ("API request failed with status 401: nope".data) ∧
      isAuthClassified
        (getResponseNonOkError (fun _ => none) 401 ("nope".data)) = false ∧
      isQuotaClassified
        (getResponseNonOkError (fun _ => none) 401 ("nope".data)) = false := by
  refine ⟨by decide, by decide, by decide⟩

/-- C5 (amended): in the redesign request path a non-2xx status of 401/403 is
classified as an authentication failure, with the substrings
`Daily free generation limit exceeded` and `Insufficient tokens` in the body
overriding the generic authentication message as quota-exhaustion failures,
all raised as `AiCommunicationError`; the buffered `getResponse` instead
raises every non-2xx response as `AiCommunicationError` carrying the JSON
`error` field when present, else the generic status message, with no
status-based authentication or quota classification of its own. -/
theorem c5_error_classification :
    (∀ (status : Nat) (statusText errorText : List Char),
      (status = 401 ∨ status = 403) →
      jsIncludes errorText ("Daily free generation limit exceeded".data) =
        true →
        redesignNonOkError status statusText errorText =
          .aiComm (errorText ++ dailyLimitSuffix) ∧
        isQuotaClassified (redesignNonOkError status statusText errorText) =
          true) ∧
    (∀ (status : Nat) (statusText errorText : List Char),
      (status = 401 ∨ status = 403) →
      jsIncludes errorText ("Daily free generation limit exceeded".data) =
        false →
      jsIncludes errorText ("Insufficient tokens".data) = true →
        redesignNonOkError status statusText errorText =
          .aiComm (errorText ++ insufficientSuffix) ∧
        isQuotaClassified (redesignNonOkError status statusText errorText) =
          true) ∧
    (∀ (status : Nat) (statusText errorText : List Char),
      (status = 401 ∨ status = 403) →
      jsIncludes errorText ("Daily free generation limit exceeded".data) =
        false →
      jsIncludes errorText ("Insufficient tokens".data) = false →
        redesignNonOkError status statusText errorText =
          .aiComm (authFailedMsg errorText) ∧
        isAuthClassified (redesignNonOkError status statusText errorText) =
          true) ∧
    (∀ (parseErrField : List Char → Option (List Char)) (status : Nat)
        (errorText : List Char),
      getResponseNonOkError parseErrField status errorText =
        .aiComm ((parseErrField errorText).getD
          ("API request failed with status ".data ++ natStr status ++
            ": ".data ++ errorText))) := by
  refine ⟨?_, ?_, ?_, ?_⟩
  · intro status statusText errorText hst hd
    have hs : (status = 401 || status = 403) = true := by
      rcases hst with h | h <;> simp [h]
    refine ⟨by simp [redesignNonOkError, hs, hd], ?_⟩
    simp only [redesignNonOkError, hs, if_true, hd]
    simp only [isQuotaClassified, ChatError.msg]
    rw [jsIncludes_append_left _ hd]
    simp
  · intro status statusText errorText hst hd hi
    have hs : (status = 401 || status = 403) = true := by
      rcases hst with h | h <;> simp [h]
    refine ⟨by simp [redesignNonOkError, hs, hd, hi], ?_⟩
    simp only [redesignNonOkError, hs, if_true, hd, Bool.false_eq_true,
      if_false, hi]
    simp only [isQuotaClassified, ChatError.msg]
    rw [jsIncludes_append_left _ hi]
    simp
  · intro status statusText errorText hst hd hi
    have hs : (status = 401 || status = 403) = true := by
      rcases hst with h | h <;> simp [h]
    refine ⟨by simp [redesignNonOkError, hs, hd, hi], ?_⟩
    simp only [redesignNonOkError, hs, if_true, hd, Bool.false_eq_true,
      if_false, hi, isAuthClassified, ChatError.msg, authFailedMsg]
    have : jsIncludes ("Authentication failed".data ++
        (". API key is missing or invalid.\nPlease check your configuration using ".data ++
          [apos] ++ "coder-cli init".data ++ [apos] ++ "\nDetails: ".data ++
          errorText)) ("Authentication failed".data) = true := by
      apply jsIncludes_append_left
      clear hd hi hs
      decide
    simpa [List.append_assoc] using this
  · intro parseErrField status errorText
    cases hp : parseErrField errorText with
    | none => simp [getResponseNonOkError, hp]
    | some e => simp [getResponseNonOkError, hp]

/-- C5, witness: concrete bodies exercising the three redesign branches and
the buffered branch. -/
theorem c5_witness :
    redesignNonOkError 403 ("Forbidden".data)
        ("Daily free generation limit exceeded".data) =
      ChatError.aiComm
        ("Daily free generation limit exceeded".data ++ dailyLimitSuffix) ∧
    redesignNonOkError 401 ("Unauthorized".data)
        ("Insufficient tokens".data) =
      ChatError.aiComm ("Insufficient tokens".data ++ insufficientSuffix) ∧
    redesignNonOkError 401 ("Unauthorized".data) ("bad key".data) =
      ChatError.aiComm (authFailedMsg ("bad key".data)) ∧
    getResponseNonOkError (fun _ => some ("backend says no".data)) 500
        ("irrelevant".data) =
      ChatError.aiComm ("backend says no".data) :=
  ⟨(c5_error_classification.1 403 ("Forbidden".data)
      ("Daily free generation limit exceeded".data) (Or.inr rfl)
      (by decide)).1,
   (c5_error_classification.2.1 401 ("Unauthorized".data)
      ("Insufficient tokens".data) (Or.inl rfl) (by decide) (by decide)).1,
   (c5_error_classification.2.2.1 401 ("Unauthorized".data) ("bad key".data)
      (Or.inl rfl) (by decide) (by decide)).1,
   (c5_error_classification.2.2.2 (fun _ => some ("backend says no".data))
      500 ("irrelevant".data))⟩

/-! ## Claim C9: timeout / abort-signal wiring -/

/-- C9, counterexample: the buffered `getResponse` fetch is issued without an
abort signal and with no scheduled abort, so not every request is bounded by
the configured timeout. -/
theorem c9_counterexample :
    (bufferedRequestSpec
        ⟨"https://api".data, none, some 30000⟩).hasAbortSignal = false ∧
      (bufferedRequestSpec
        ⟨"https://api".data, none, some 30000⟩).abortAfterMs = none :=
  ⟨rfl, rfl⟩

/-- C9 (amended): the streamed chat request and the redesign request are each
constructed with an abort signal whose controller is scheduled to abort after
`config.timeout || 30000` milliseconds; the buffered `getResponse` request is
issued with no abort signal and no scheduled abort. -/
theorem c9_timeout_wiring (config : Config) :
    (streamedRequestSpec config).hasAbortSignal = true ∧
      (streamedRequestSpec config).abortAfterMs =
        some (jsOrNat config.timeout 30000) ∧
      (redesignRequestSpec config).hasAbortSignal = true ∧
      (redesignRequestSpec config).abortAfterMs =
        some (jsOrNat config.timeout 30000) ∧
      (bufferedRequestSpec config).hasAbortSignal = false ∧
      (bufferedRequestSpec config).abortAfterMs = none :=
  ⟨rfl, rfl, rfl, rfl, rfl, rfl⟩

/-! ## Claim C8: the fenced-block scan -/

theorem fence_isPrefixOf_cons_false {c : Char} (x : List Char)
    (h : ¬(c = btick)) : fence.isPrefixOf (c :: x) = false := by
  simp only [fence, List.isPrefixOf, Bool.and_eq_false_iff]
  left
  simp [beq_eq_false_iff_ne]
  exact fun hh => h hh.symm

theorem tryBlockAt_cons_not_btick {c : Char} (x : List Char)
    (hc : ¬(c = btick)) : tryBlockAt (c :: x) = none := by
  unfold tryBlockAt
  rw [fence_isPrefixOf_cons_false _ hc]
  simp

theorem scanFileBlocks_text {s : List Char} (r : List Char)
    (h : btick ∉ s) : scanFileBlocks (s ++ r) = scanFileBlocks r := by
  induction s with
  | nil => simp
  | cons c s' ih =>
    have hc : ¬(c = btick) := fun hh => h (by simp [hh])
    have h' : btick ∉ s' := fun hh => h (by simp [hh])
    show scanFileBlocks (c :: (s' ++ r)) = scanFileBlocks r
    rw [scanFileBlocks]
    split
    next r1 hr =>
      rw [tryBlockAt_cons_not_btick _ hc] at hr
      cases hr
    next => exact ih h'

theorem token_split (tok r2 : List Char)
    (h : ∀ c ∈ tok, isTokenChar c = true) :
    (tok ++ '\n' :: r2).takeWhile isTokenChar = tok ∧
      (tok ++ '\n' :: r2).dropWhile isTokenChar = '\n' :: r2 := by
  have hn : isTokenChar '\n' = false := by decide
  induction tok with
  | nil => simp [List.takeWhile_cons, List.dropWhile_cons, hn]
  | cons c ts ih =>
    have hc := h c (by simp)
    have ih' := ih (fun x hx => h x (by simp [hx]))
    simp [List.takeWhile_cons, List.dropWhile_cons, hc, ih'.1, ih'.2]

theorem splitAtFence_exact {body : List Char} (rest : List Char)
    (h : btick ∉ body) :
    splitAtFence (body ++ fence ++ rest) = some (body, rest) := by
  induction body with
  | nil =>
    show splitAtFence (btick :: btick :: btick :: rest) = some ([], rest)
    rw [splitAtFence]
    have hp : fence.isPrefixOf (btick :: btick :: btick :: rest) = true := by
      have := isPrefixOf_append_self fence rest
      simpa [fence] using this
    simp [hp]
  | cons c body' ih =>
    have hc : ¬(c = btick) := fun hh => h (by simp [hh])
    have h' : btick ∉ body' := fun hh => h (by simp [hh])
    show splitAtFence (c :: (body' ++ fence ++ rest)) = some (c :: body', rest)
    rw [splitAtFence, fence_isPrefixOf_cons_false _ hc]
    have ih' : splitAtFence (body' ++ (fence ++ rest)) = some (body', rest) := by
      rw [← List.append_assoc]
      exact ih h'
    simp [ih']

theorem tryBlockAt_block (tok body rest : List Char) (htok : tok ≠ [])
    (hall : ∀ c ∈ tok, isTokenChar c = true) (hbody : btick ∉ body) :
    tryBlockAt (fence ++ (tok ++ '\n' :: (body ++ (fence ++ rest)))) =
      some (tok, body, rest) := by
  have hts := token_split tok (body ++ (fence ++ rest)) hall
  have hne : tok.isEmpty = false := by
    cases tok with
    | nil => exact absurd rfl htok
    | cons x xs => rfl
  have hsf : splitAtFence (body ++ (fence ++ rest)) = some (body, rest) := by
    rw [← List.append_assoc]
    exact splitAtFence_exact rest hbody
  have hpre : fence.isPrefixOf
      (fence ++ (tok ++ '\n' :: (body ++ (fence ++ rest)))) = true :=
    isPrefixOf_append_self _ _
  have hdrop : (fence ++ (tok ++ '\n' :: (body ++ (fence ++ rest)))).drop 3 =
      tok ++ '\n' :: (body ++ (fence ++ rest)) := rfl
  unfold tryBlockAt
  simp only [hpre, if_true, hdrop, hts.1, hts.2, hne, Bool.false_eq_true,
    if_false, hsf]

theorem scanFileBlocks_block (tok body rest : List Char)
    (htok : tok ≠ []) (hall : ∀ c ∈ tok, isTokenChar c = true)
    (hbody : btick ∉ body) :
    scanFileBlocks (fence ++ (tok ++ '\n' :: (body ++ (fence ++ rest)))) =
      (tok, body) :: scanFileBlocks rest := by
  show scanFileBlocks
      (btick :: btick :: btick ::
        (tok ++ '\n' :: (body ++ (fence ++ rest)))) = _
  have hb : tryBlockAt
      (btick :: btick :: btick ::
        (tok ++ '\n' :: (body ++ (fence ++ rest)))) =
        some (tok, body, rest) :=
    tryBlockAt_block tok body rest htok hall hbody
  rw [scanFileBlocks]
  split
  next r1 hr =>
    rw [hb] at hr
    cases hr
    rfl
  next hr =>
    rw [hb] at hr
    cases hr

theorem scanFileBlocks_render :
    ∀ ps : List RespPiece, (∀ pc ∈ ps, RespPiece.ok pc = true) →
      scanFileBlocks (renderResp ps) = (ps.map RespPiece.blocks).flatten := by
  intro ps
  induction ps with
  | nil =>
    intro _
    show scanFileBlocks [] = []
    rw [scanFileBlocks]
  | cons pc ps ih =>
    intro h
    have hpc := h pc (List.mem_cons_self _ _)
    have hps := fun x hx => h x (List.mem_cons_of_mem _ hx)
    have hr : renderResp (pc :: ps) = renderPiece pc ++ renderResp ps := by
      simp [renderResp]
    rw [hr]
    cases pc with
    | textPiece s =>
      have hs : btick ∉ s := by
        simp only [RespPiece.ok, Bool.not_eq_true'] at hpc
        simp [List.elem_iff] at hpc
        simpa using hpc
      show scanFileBlocks (s ++ renderResp ps) = _
      rw [scanFileBlocks_text _ hs, ih hps]
      simp [RespPiece.blocks]
    | blockPiece tok body =>
      simp only [RespPiece.ok, Bool.and_eq_true, Bool.not_eq_true'] at hpc
      obtain ⟨⟨hne, hall0⟩, hbc⟩ := hpc
      have htok : tok ≠ [] := by
        cases tok with
        | nil => cases hne
        | cons x xs => simp
      have hall : ∀ c ∈ tok, isTokenChar c = true := by
        simpa [List.all_eq_true] using hall0
      have hbody : btick ∉ body := by
        simp [List.elem_iff] at hbc
        simpa using hbc
      have he : renderPiece (RespPiece.blockPiece tok body) ++ renderResp ps =
          fence ++ (tok ++ '\n' :: (body ++ (fence ++ renderResp ps))) := by
        simp [renderPiece, List.append_assoc]
      rw [he, scanFileBlocks_block tok body (renderResp ps) htok hall hbody,
        ih hps]
      simp [RespPiece.blocks]

theorem scanCreate_nil_of :
    ∀ l : List Char, (∀ s ∈ l.tails, tryCreateAt s = none) →
      scanCreate l = [] := by
  intro l
  induction l with
  | nil =>
    intro _
    rw [scanCreate]
  | cons c cs ih =>
    intro h
    rw [scanCreate]
    split
    next r hr =>
      rw [h (c :: cs) (by simp [List.tails_cons])] at hr
      cases hr
    next =>
      exact ih (fun s hs => h s (by simp [List.tails_cons, hs]))

theorem scanDelete_nil_of :
    ∀ l : List Char, (∀ s ∈ l.tails, tryDeleteAt s = none) →
      scanDelete l = [] := by
  intro l
  induction l with
  | nil =>
    intro _
    rw [scanDelete]
  | cons c cs ih =>
    intro h
    rw [scanDelete]
    split
    next r hr =>
      rw [h (c :: cs) (by simp [List.tails_cons])] at hr
      cases hr
    next =>
      exact ih (fun s hs => h s (by simp [List.tails_cons, hs]))

theorem parseModifications_filter_update (r : List Char) :
    (parseModificationsFromResponse r).filter
        (fun m => m.type == ModificationType.update) =
      (scanFileBlocks r).map
        (fun tb => { type := .update, filePath := tb.1, content := some tb.2,
                     method := some .replace }) := by
  unfold parseModificationsFromResponse
  rw [List.filter_append, List.filter_append]
  simp only [List.filter_map, Function.comp]
  have h1 : ((fun (m : CodeModification) => m.type == ModificationType.update) ∘
      fun (tb : List Char × List Char) =>
        ({ type := .update, filePath := tb.1, content := some tb.2,
           method := some .replace } : CodeModification)) = fun _ => true := by
    funext tb
    simp
  have h2 : ((fun (m : CodeModification) => m.type == ModificationType.update) ∘
      fun (tb : List Char × List Char) =>
        ({ type := .create, filePath := tb.1, content := some tb.2,
           method := none } : CodeModification)) = fun _ => false := by
    funext tb
    simp
  have h3 : ((fun (m : CodeModification) => m.type == ModificationType.update) ∘
      fun (t : List Char) =>
        ({ type := .delete, filePath := t, content := none,
           method := none } : CodeModification)) = fun _ => false := by
    funext t
    simp
  rw [h1, h2, h3]
  simp

/-- C8: in a response decomposed into backtick-free text segments and
well-formed fenced blocks (an opening fence immediately followed on the same
line by a non-empty token of word characters, dots, slashes, hyphens or
underscores, then the body, then a closing fence), every block occurrence
produces exactly one `update` modification with that token as `filePath`,
method `replace`, and the block body verbatim as content, in order; in
particular the input ```` ```src/a.ts\nconsole.log(1)\n``` ```` yields exactly
one update modification with `filePath = "src/a.ts"` and
`content = "console.log(1)\n"`. -/
theorem c8_fenced_blocks_become_update_modifications :
    (∀ ps : List RespPiece, (∀ pc ∈ ps, RespPiece.ok pc = true) →
      (parseModificationsFromResponse (renderResp ps)).filter
          (fun m => m.type == ModificationType.update) =
        ((ps.map RespPiece.blocks).flatten).map
          (fun tb => { type := .update, filePath := tb.1,
                       content := some tb.2,
                       method := some .replace })) ∧
    parseModificationsFromResponse ("```src/a.ts\nconsole.log(1)\n```".data) =
      [{ type := .update, filePath := "src/a.ts".data,
         content := some ("console.log(1)\n".data),
         method := some ModificationMethod.replace }] := by
  constructor
  · intro ps h
    rw [parseModifications_filter_update, scanFileBlocks_render ps h]
  · have hb : "```src/a.ts\nconsole.log(1)\n```".data =
        renderResp [RespPiece.blockPiece ("src/a.ts".data)
          ("console.log(1)\n".data)] := by decide
    have h1 : scanFileBlocks ("```src/a.ts\nconsole.log(1)\n```".data) =
        [(("src/a.ts".data), ("console.log(1)\n".data))] := by
      rw [hb, scanFileBlocks_render _ (by decide)]
      decide
    have h2 : scanCreate ("```src/a.ts\nconsole.log(1)\n```".data) = [] :=
      scanCreate_nil_of _ (by decide)
    have h3 : scanDelete ("```src/a.ts\nconsole.log(1)\n```".data) = [] :=
      scanDelete_nil_of _ (by decide)
    unfold parseModificationsFromResponse
    rw [h1, h2, h3]
    decide

/-- C8, witness: a response made of a text segment and one fenced block for
`src/a.ts` yields exactly that one update modification. -/
theorem c8_witness :
    (parseModificationsFromResponse (renderResp
        [RespPiece.textPiece ("hello ".data),
         RespPiece.blockPiece ("src/a.ts".data)
           ("console.log(1)\n".data)])).filter
        (fun m => m.type == ModificationType.update) =
      [{ type := .update, filePath := "src/a.ts".data,
         content := some ("console.log(1)\n".data),
         method := some ModificationMethod.replace }] :=
  (c8_fenced_blocks_become_update_modifications.1
    [RespPiece.textPiece ("hello ".data),
     RespPiece.blockPiece ("src/a.ts".data) ("console.log(1)\n".data)]
    (by decide)).trans (by decide)

end CoderCli
